import Mathlib

/-!
Verification of the Ark wallet SDK client against its specification.

The development shallowly embeds the relevant parts of the TypeScript
sources:

* the forfeit transaction builder `buildForfeitTx` (embedded in the
  repository documentation blob, the `forfeit.ts` module);
* the settlement event loop of `Wallet.settle` (`src/core/wallet.ts`);
* the nonce / signature matrix wire codec `encodeMatrix` / `decodeMatrix`
  (`providers/ark.ts`);
* the settlement event parser `parseSettlementEvent` (`providers/ark.ts`,
  REST provider);
* `Wallet.getBalance` and the `sendBitcoin` routing logic
  (`src/core/wallet.ts`);
* the VHTLC construction parameters (the implementation of `VHTLC.Script`
  is not among the provided sources; its validation is modelled, see the
  doc comment of `vhtlcValidate`).

Bytes are modelled as natural numbers, byte strings as `List Nat`,
JavaScript `bigint` amounts as `Int`, and fallible code as `Option` or
`Except`.
-/

namespace ArkSdk

/-! ## Transaction model

A minimal model of the parts of a `@scure/btc-signer` `Transaction` that
`buildForfeitTx` constructs: version, locktime, and the ordered lists of
inputs and outputs with the fields the builder sets. -/

/-- An outpoint: transaction id (big-endian hex string) and output index. -/
structure Outpoint where
  txid : String
  vout : Nat
  deriving Repr, DecidableEq

/-- The witness UTXO annotation attached to an input: previous output script
and amount. -/
structure WitnessUtxo where
  script : List Nat
  amount : Int
  deriving Repr, DecidableEq

/-- A transaction input as `buildForfeitTx` constructs it: previous outpoint,
witness UTXO, sequence number, and optional sighash type annotation. -/
structure TxInput where
  txid : String
  index : Nat
  witnessUtxo : WitnessUtxo
  sequence : Nat
  sighashType : Option Nat
  deriving Repr, DecidableEq

/-- A transaction output: script and amount in satoshis. -/
structure TxOutput where
  script : List Nat
  amount : Int
  deriving Repr, DecidableEq

/-- A transaction: version, locktime (`@scure/btc-signer` defaults an absent
locktime to 0), inputs and outputs in insertion order. -/
structure Transaction where
  version : Nat
  lockTime : Nat
  inputs : List TxInput
  outputs : List TxOutput
  deriving Repr, DecidableEq

/-- `SigHash.DEFAULT` of `@scure/btc-signer`: the BIP-341 default sighash,
numeric value 0. -/
def sigHashDefault : Nat := 0

/-- Modelled from the spec: the canonical Pay-to-Anchor ephemeral anchor
output `(OP_1 0x02 0x4e73, 0 sats)`.  The `P2A` constant lives in
`src/utils/anchor.ts`, which is not among the provided sources; the spec
(section 4.5) gives its exact bytes. -/
def P2A : TxOutput := { script := [0x51, 0x02, 0x4e, 0x73], amount := 0 }

/-- JavaScript truthiness of an optional number: an `undefined` or zero
locktime is falsy, any other number is truthy. -/
def jsTruthy : Option Nat → Bool
  | none => false
  | some n => n ≠ 0

/-- The parameter record of `buildForfeitTx` (`ForfeitTxParams` in
`forfeit.ts`): two outpoints, the two input amounts, the three output
scripts and an optional absolute locktime.  The builder takes no fee
parameter. -/
structure ForfeitTxParams where
  connectorInput : Outpoint
  vtxoInput : Outpoint
  vtxoAmount : Int
  connectorAmount : Int
  vtxoPkScript : List Nat
  connectorPkScript : List Nat
  serverPkScript : List Nat
  txLocktime : Option Nat
  deriving Repr

/-- `buildForfeitTx` from `forfeit.ts`: a version-3 transaction with the
connector as input 0 (sequence `0xffffffff`, no sighash annotation), the
vtxo as input 1 (sequence `0xfffffffe` when a truthy locktime is supplied,
sighash `DEFAULT`), the server output paying
`vtxoAmount + connectorAmount`, and the P2A anchor as output 1. -/
def buildForfeitTx (p : ForfeitTxParams) : Transaction :=
  { version := 3
    lockTime := p.txLocktime.getD 0
    inputs :=
      [ { txid := p.connectorInput.txid
          index := p.connectorInput.vout
          witnessUtxo := { script := p.connectorPkScript, amount := p.connectorAmount }
          sequence := 0xffffffff
          sighashType := none }
      , { txid := p.vtxoInput.txid
          index := p.vtxoInput.vout
          witnessUtxo := { script := p.vtxoPkScript, amount := p.vtxoAmount }
          sequence := if jsTruthy p.txLocktime then 0xfffffffe else 0xffffffff
          sighashType := some sigHashDefault } ]
    outputs :=
      [ { script := p.serverPkScript, amount := p.vtxoAmount + p.connectorAmount }
      , P2A ] }

/-- A concrete forfeit builder call: vtxo of 1000 sats, connector of
100 sats, no locktime. -/
def forfeitExampleParams : ForfeitTxParams :=
  { connectorInput := { txid := "aa", vout := 0 }
    vtxoInput := { txid := "bb", vout := 1 }
    vtxoAmount := 1000
    connectorAmount := 100
    vtxoPkScript := [0x51, 0x20]
    connectorPkScript := [0x00, 0x14]
    serverPkScript := [0x51, 0x21]
    txLocktime := none }

/-- Claim C1, counterexample: on the concrete call with vtxo amount 1000 and
connector amount 100, output 0 of the forfeit transaction pays 1100 sats,
not `vtxoAmount + connectorAmount − feeAmount` for a fee amount of 10
(which would be 1090): `buildForfeitTx` deducts no fee. -/
theorem buildForfeitTx_no_fee_deduction_counterexample :
    ((buildForfeitTx forfeitExampleParams).outputs.map TxOutput.amount) = [1100, 0] ∧
      (1100 : Int) ≠ 1000 + 100 - 10 := by
  constructor
  · rfl
  · decide

/-- Claim C1, amended: for every call to `buildForfeitTx`, output 0 of the
returned transaction pays the server script exactly
`vtxoAmount + connectorAmount` satoshis; the builder takes no fee amount
and deducts nothing. -/
theorem buildForfeitTx_output0 (p : ForfeitTxParams) :
    (buildForfeitTx p).outputs.get? 0 =
      some { script := p.serverPkScript, amount := p.vtxoAmount + p.connectorAmount } := by
  rfl

/-- Claim C8: for every `buildForfeitTx` call, input 0 (the connector) has
sequence `0xffffffff` and no sighash annotation, and input 1 (the vtxo)
has sighash `DEFAULT` and sequence `0xfffffffe` exactly when a non-zero
locktime is supplied, `0xffffffff` otherwise. -/
theorem buildForfeitTx_inputs (p : ForfeitTxParams) :
    ((buildForfeitTx p).inputs.get? 0).map (fun i => (i.sequence, i.sighashType)) =
        some (0xffffffff, none) ∧
      ((buildForfeitTx p).inputs.get? 1).map TxInput.sighashType = some (some sigHashDefault) ∧
      (((buildForfeitTx p).inputs.get? 1).map TxInput.sequence = some 0xfffffffe ↔
        ∃ n, p.txLocktime = some n ∧ n ≠ 0) ∧
      (((buildForfeitTx p).inputs.get? 1).map TxInput.sequence = some 0xffffffff ↔
        ¬ ∃ n, p.txLocktime = some n ∧ n ≠ 0) := by
  refine ⟨rfl, rfl, ?_, ?_⟩ <;>
    · simp only [buildForfeitTx, List.get?, Option.map_some]
      cases h : p.txLocktime with
      | none => simp [jsTruthy]
      | some n =>
        by_cases hn : n = 0 <;> simp [jsTruthy, hn]

/-! ## Settlement event loop

The event loop of `Wallet.settle` (`src/core/wallet.ts`).  The loop
consumes the settlement event stream with a `step` variable recording the
type of the last processed state-advancing event (initially `undefined`),
a signing-session slot (created on `SigningStart`), and the 1000 ms ping
interval, which `stopPing` cancels.  The interval is started before the
loop; the loop is modelled as a recursion over the list of events the
stream yields, returning the outcome together with the final loop state
(so that the ping flag at exit can be observed). -/

/-- The settlement event types `Wallet.settle` dispatches on. -/
inductive SettlementEventType where
  | signingStart
  | signingNoncesGenerated
  | finalization
  | finalized
  | failed
  deriving Repr, DecidableEq

/-- A settlement event as consumed by the loop, with the payloads the loop
itself inspects (the failure reason and the round txid). -/
inductive SettlementEv where
  | failed (reason : String)
  | signingStart
  | signingNoncesGenerated
  | finalization
  | finalized (roundTxid : String)
  deriving Repr, DecidableEq

/-- The mutable state of the `settle` event loop: the `step` variable, the
signing-session slot, and whether the 1000 ms ping interval is still
active. -/
structure SettleState where
  step : Option SettlementEventType
  sessionCreated : Bool
  pingActive : Bool
  deriving Repr, DecidableEq

/-- How `settle` terminates: returning the round txid on `Finalized`,
rethrowing the reason of a `Failed` event, the internal signing-session
error, or the final `throw new Error("Settlement failed")` when the
stream is exhausted. -/
inductive SettleOutcome where
  | finalized (roundTxid : String)
  | failedEv (reason : String)
  | internalErr (msg : String)
  | exhausted
  deriving Repr, DecidableEq

/-- The `for await` loop body of `Wallet.settle`, one case per event type,
in source order.  Each guard mirrors the `continue` checks of the switch:
a `Failed` event is skipped while `step` is `undefined` and otherwise
stops the ping loop and throws its reason; each of the four ordered
events is skipped unless `step` is its expected predecessor, and on
acceptance stops the ping loop (except `Finalized`, which returns
directly) and advances `step`. -/
def settleLoop : SettleState → List SettlementEv → SettleOutcome × SettleState
  | st, [] => (.exhausted, st)
  | st, e :: rest =>
    match e with
    | .failed r =>
      if st.step = none then
        settleLoop st rest
      else
        (.failedEv r, { st with pingActive := false })
    | .signingStart =>
      if st.step ≠ none then
        settleLoop st rest
      else
        settleLoop { step := some .signingStart, sessionCreated := true, pingActive := false } rest
    | .signingNoncesGenerated =>
      if st.step ≠ some .signingStart then
        settleLoop st rest
      else if st.sessionCreated = false then
        (.internalErr "Signing session not found", { st with pingActive := false })
      else
        settleLoop { st with step := some .signingNoncesGenerated, pingActive := false } rest
    | .finalization =>
      if st.step ≠ some .signingNoncesGenerated then
        settleLoop st rest
      else
        settleLoop { st with step := some .finalization, pingActive := false } rest
    | .finalized txid =>
      if st.step ≠ some .finalization then
        settleLoop st rest
      else
        (.finalized txid, st)

/-- Running `settle` from after registration: the ping interval has just
been started (`pingActive = true`), no event processed yet, no signing
session. -/
def settleRun (events : List SettlementEv) : SettleOutcome × SettleState :=
  settleLoop { step := none, sessionCreated := false, pingActive := true } events

/-- Claim C3, counterexample: a `Failed` event received before the
`SigningStart` event does not abort the settlement.  Fed
`Failed("boom")` followed by the regular four-event sequence, `settle`
ignores the failure and returns the round txid; fed only
`Failed("boom")`, it exits by the generic stream-exhaustion error, not by
rejecting with the reason `"boom"`, and with the ping loop still
running. -/
theorem settle_failed_before_signing_ignored_counterexample :
    settleRun
        [.failed "boom", .signingStart, .signingNoncesGenerated,
          .finalization, .finalized "aabb"] =
      (.finalized "aabb",
        { step := some .finalization, sessionCreated := true, pingActive := false }) ∧
      settleRun [.failed "boom"] =
        (.exhausted, { step := none, sessionCreated := false, pingActive := true }) := by
  constructor <;> rfl

/-- Claim C3, amended: a `Failed` event received after the first
state-advancing event has been processed (`step` is defined) aborts the
settlement, stopping the ping loop and rejecting with the reason carried
by the event; a `Failed` event received while `step` is still
`undefined` (before `SigningStart` has been processed) is skipped without
effect and the loop continues with the remaining events. -/
theorem settle_failed_event_handling :
    (∀ (st : SettleState) (r : String) (rest : List SettlementEv),
        st.step ≠ none →
        settleLoop st (.failed r :: rest) = (.failedEv r, { st with pingActive := false })) ∧
      ∀ (st : SettleState) (r : String) (rest : List SettlementEv),
        st.step = none →
        settleLoop st (.failed r :: rest) = settleLoop st rest := by
  constructor
  · intro st r rest h
    simp [settleLoop, h]
  · intro st r rest h
    simp [settleLoop, h]

/-- Witness for the amended claim C3, at concrete states: with
`step = SigningStart` a `Failed("timeout")` event aborts with reason
`"timeout"` and the ping loop stopped; with `step` undefined the same
event is skipped and (the stream ending there) `settle` exits by the
generic exhaustion error with the ping loop untouched. -/
theorem settle_failed_event_handling_witness :
    settleLoop
        { step := some .signingStart, sessionCreated := true, pingActive := true }
        [.failed "timeout"] =
      (.failedEv "timeout",
        { step := some .signingStart, sessionCreated := true, pingActive := false }) ∧
      settleLoop { step := none, sessionCreated := false, pingActive := true }
          [.failed "timeout"] =
        (.exhausted, { step := none, sessionCreated := false, pingActive := true }) := by
  constructor
  · exact settle_failed_event_handling.1
      { step := some .signingStart, sessionCreated := true, pingActive := true }
      "timeout" [] (by simp)
  · exact (settle_failed_event_handling.2
      { step := none, sessionCreated := false, pingActive := true }
      "timeout" [] rfl).trans rfl

/-- Claim C4: when the event stream is exhausted before any
state-advancing event (for example an empty stream, or a stream carrying
only a `Failed` event while `step` is still undefined), `settle`
terminates by throwing `"Settlement failed"` with the 1000 ms ping
interval still active: no exit path outside the switch cases calls
`stopPing`, and there is no `try`/`finally` around the loop. -/
theorem settle_exhaustion_leaks_ping_interval :
    settleRun [] =
        (.exhausted, { step := none, sessionCreated := false, pingActive := true }) ∧
      (settleRun [.failed "timeout"]).2.pingActive = true := by
  constructor <;> rfl

/-- Claim C5: the loop accepts the four ordered events only in the order
`SigningStart`, `SigningNoncesGenerated`, `Finalization`, `Finalized`.
An ordered event arriving when `step` is not its immediate predecessor —
which covers every duplicate of an already-processed event — is dropped
with no effect on the loop state, and a `Finalized` event accepted in
state `Finalization` makes `settle` return the round txid carried by
that event. -/
theorem settle_event_ordering :
    (∀ (st : SettleState) (rest : List SettlementEv),
        st.step ≠ none →
        settleLoop st (.signingStart :: rest) = settleLoop st rest) ∧
      (∀ (st : SettleState) (rest : List SettlementEv),
        st.step ≠ some .signingStart →
        settleLoop st (.signingNoncesGenerated :: rest) = settleLoop st rest) ∧
      (∀ (st : SettleState) (rest : List SettlementEv),
        st.step ≠ some .signingNoncesGenerated →
        settleLoop st (.finalization :: rest) = settleLoop st rest) ∧
      (∀ (st : SettleState) (txid : String) (rest : List SettlementEv),
        st.step ≠ some .finalization →
        settleLoop st (.finalized txid :: rest) = settleLoop st rest) ∧
      ∀ (st : SettleState) (txid : String) (rest : List SettlementEv),
        st.step = some .finalization →
        settleLoop st (.finalized txid :: rest) = (.finalized txid, st) := by
  refine ⟨?_, ?_, ?_, ?_, ?_⟩ <;>
    · intros
      simp [settleLoop, *]

/-- Witness for claim C5, at concrete states: a duplicate `SigningStart`
in state `SigningStart` is dropped (the stream then ending by
exhaustion with the state unchanged), and a `Finalized` event in state
`Finalization` returns its round txid. -/
theorem settle_event_ordering_witness :
    settleLoop
        { step := some .signingStart, sessionCreated := true, pingActive := false }
        [.signingStart] =
      (.exhausted,
        { step := some .signingStart, sessionCreated := true, pingActive := false }) ∧
      settleLoop
          { step := some .finalization, sessionCreated := true, pingActive := false }
          [.finalized "cc"] =
        (.finalized "cc",
          { step := some .finalization, sessionCreated := true, pingActive := false }) := by
  constructor
  · exact (settle_event_ordering.1
      { step := some .signingStart, sessionCreated := true, pingActive := false }
      [] (by simp)).trans rfl
  · exact settle_event_ordering.2.2.2.2
      { step := some .finalization, sessionCreated := true, pingActive := false }
      "cc" [] rfl

/-! ## Nonce / signature matrix wire codec

`encodeMatrix` and `decodeMatrix` from `providers/ark.ts`.  The encoder
writes, through a little-endian `DataView`, the row count as a `u32`,
then per row a `u32` cell count followed by, per cell, a `u8` presence
flag (1 exactly when the cell is non-empty) and the cell bytes when
present.  The decoder reads the same shape, reading `cellLength` bytes
for each present cell and producing an empty byte string for each absent
one; a read past the end of the buffer throws in JavaScript and is
modelled as `none`. -/

/-- The four little-endian bytes `DataView.setUint32` writes for `n` (the
value is taken modulo 2^32, as in JavaScript). -/
def u32le (n : Nat) : List Nat :=
  [n % 256, n / 256 % 256, n / 65536 % 256, n / 16777216 % 256]

/-- `DataView.getUint32` little-endian: read four bytes, or fail past the
end of the buffer. -/
def readU32le : List Nat → Option (Nat × List Nat)
  | b0 :: b1 :: b2 :: b3 :: rest =>
    some (b0 + 256 * b1 + 65536 * b2 + 16777216 * b3, rest)
  | _ => none

/-- `DataView.getUint8`: read one byte, or fail past the end. -/
def readByte : List Nat → Option (Nat × List Nat)
  | b :: rest => some (b, rest)
  | [] => none

/-- Read exactly `k` bytes (the `new Uint8Array(buffer, offset, cellLength)`
view), failing when fewer remain. -/
def readBytes (k : Nat) (bs : List Nat) : Option (List Nat × List Nat) :=
  if bs.length < k then none else some (bs.take k, bs.drop k)

/-- The bytes `encodeMatrix` writes for one cell: the presence flag
(1 when the cell is non-empty, 0 otherwise) followed by the cell bytes
when present. -/
def encodeCell (cell : List Nat) : List Nat :=
  if cell.length > 0 then 1 :: cell else [0]

/-- The bytes `encodeMatrix` writes for one row: the little-endian `u32`
cell count followed by the encoded cells. -/
def encodeRow (row : List (List Nat)) : List Nat :=
  u32le row.length ++ (row.map encodeCell).flatten

/-- `encodeMatrix` from `providers/ark.ts`: the little-endian `u32` row
count followed by the encoded rows, written sequentially into one
buffer. -/
def encodeMatrix (m : List (List (List Nat))) : List Nat :=
  u32le m.length ++ (m.map encodeRow).flatten

/-- The inner cell loop of `decodeMatrix`: read `count` cells, each a
presence flag compared against 1 and, when present, `cellLength` bytes;
an absent cell decodes to the empty byte string. -/
def decodeCells (cellLength : Nat) : Nat → List Nat → Option (List (List Nat) × List Nat)
  | 0, bs => some ([], bs)
  | j + 1, bs =>
    match readByte bs with
    | none => none
    | some (flag, bs1) =>
      if flag = 1 then
        match readBytes cellLength bs1 with
        | none => none
        | some (cell, bs2) =>
          match decodeCells cellLength j bs2 with
          | none => none
          | some (cells, bs3) => some (cell :: cells, bs3)
      else
        match decodeCells cellLength j bs1 with
        | none => none
        | some (cells, bs2) => some ([] :: cells, bs2)

/-- The row loop of `decodeMatrix`: read `count` rows, each a `u32` cell
count followed by that many cells. -/
def decodeRows (cellLength : Nat) : Nat → List Nat → Option (List (List (List Nat)) × List Nat)
  | 0, bs => some ([], bs)
  | i + 1, bs =>
    match readU32le bs with
    | none => none
    | some (rowLength, bs1) =>
      match decodeCells cellLength rowLength bs1 with
      | none => none
      | some (row, bs2) =>
        match decodeRows cellLength i bs2 with
        | none => none
        | some (rows, bs3) => some (row :: rows, bs3)

/-- `decodeMatrix` from `providers/ark.ts`: read the `u32` row count, then
that many rows; trailing bytes are ignored, as in the source. -/
def decodeMatrix (bs : List Nat) (cellLength : Nat) : Option (List (List (List Nat))) :=
  match readU32le bs with
  | none => none
  | some (numRows, bs1) =>
    match decodeRows cellLength numRows bs1 with
    | none => none
    | some (rows, _) => some rows

/-- `getUint32` reads back exactly what `setUint32` wrote, for values below
2^32, leaving the remaining bytes untouched. -/
theorem readU32le_u32le (n : Nat) (h : n < 2 ^ 32) (rest : List Nat) :
    readU32le (u32le n ++ rest) = some (n, rest) := by
  simp only [u32le, List.cons_append, List.nil_append, readU32le]
  congr 1
  congr 1
  omega

/-- Reading back exactly the bytes just written for a byte string. -/
theorem readBytes_append (xs rest : List Nat) :
    readBytes xs.length (xs ++ rest) = some (xs, rest) := by
  simp only [readBytes, List.length_append]
  rw [if_neg (by omega)]
  rw [List.take_left, List.drop_left]

/-- The presence flag and the payload of one encoded cell, written as one
concatenation. -/
theorem encodeCell_eq (cell : List Nat) :
    encodeCell cell = (if cell.length > 0 then [1] else [0]) ++ cell := by
  cases cell <;> simp [encodeCell]

/-- The cell loop of the decoder inverts the cell loop of the encoder on
any row whose cells are empty or exactly `cellLength` bytes long. -/
theorem decodeCells_encode (cellLength : Nat) (row : List (List Nat)) (rest : List Nat)
    (h : ∀ cell ∈ row, cell = [] ∨ cell.length = cellLength) :
    decodeCells cellLength row.length ((row.map encodeCell).flatten ++ rest) =
      some (row, rest) := by
  induction row with
  | nil => rfl
  | cons c cs ih =>
    have hcs : ∀ cell ∈ cs, cell = [] ∨ cell.length = cellLength := by
      intro cell hm
      exact h cell (List.mem_cons_of_mem c hm)
    have hrec := ih hcs
    rcases c with _ | ⟨b, bs⟩
    · have hshape : ((List.map encodeCell ([] :: cs)).flatten ++ rest) =
          0 :: ((List.map encodeCell cs).flatten ++ rest) := by
        simp [encodeCell]
      rw [List.length_cons, hshape]
      simp [decodeCells, readByte, hrec]
    · have hc : (b :: bs).length = cellLength := by
        rcases h (b :: bs) (List.mem_cons_self _ cs) with hc | hc
        · exact absurd hc (by simp)
        · exact hc
      have hshape : ((List.map encodeCell ((b :: bs) :: cs)).flatten ++ rest) =
          1 :: ((b :: bs) ++ ((List.map encodeCell cs).flatten ++ rest)) := by
        simp [encodeCell]
      have hrb : readBytes cellLength
          (b :: (bs ++ ((List.map encodeCell cs).flatten ++ rest))) =
          some (b :: bs, (List.map encodeCell cs).flatten ++ rest) := by
        rw [← hc]
        exact readBytes_append (b :: bs) _
      rw [List.length_cons, hshape]
      simp [decodeCells, readByte, hrb, hrec]

/-- The row loop of the decoder inverts the row loop of the encoder when
every row has fewer than 2^32 cells, each empty or `cellLength` bytes. -/
theorem decodeRows_encode (cellLength : Nat) (m : List (List (List Nat))) (rest : List Nat)
    (hcell : ∀ row ∈ m, ∀ cell ∈ row, cell = [] ∨ cell.length = cellLength)
    (hlen : ∀ row ∈ m, row.length < 2 ^ 32) :
    decodeRows cellLength m.length ((m.map encodeRow).flatten ++ rest) = some (m, rest) := by
  induction m with
  | nil => rfl
  | cons row rows ih =>
    have hshape : ((List.map encodeRow (row :: rows)).flatten ++ rest) =
        u32le row.length ++
          ((List.map encodeCell row).flatten ++ ((List.map encodeRow rows).flatten ++ rest)) := by
      simp [encodeRow]
    have hu := readU32le_u32le row.length (hlen row (List.mem_cons_self row rows))
      ((List.map encodeCell row).flatten ++ ((List.map encodeRow rows).flatten ++ rest))
    have hcells := decodeCells_encode cellLength row
      ((List.map encodeRow rows).flatten ++ rest) (hcell row (List.mem_cons_self row rows))
    have hrows := ih (fun r hr => hcell r (List.mem_cons_of_mem row hr))
      (fun r hr => hlen r (List.mem_cons_of_mem row hr))
    rw [List.length_cons, hshape]
    simp [decodeRows, hu, hcells, hrows]

/-- Claim C6: for every matrix whose cells are each empty or exactly
`cellLength` bytes (and whose row and cell counts fit in a `u32`),
`encodeMatrix` emits the wire format — little-endian `u32` row count,
then per row a little-endian `u32` cell count followed by, per cell, a
`u8` presence flag that is 1 exactly when the cell is non-empty and then
the cell bytes when present — and `decodeMatrix (encodeMatrix m)
cellLength` returns the matrix itself, absent cells round-tripping to
empty byte strings. -/
theorem encodeMatrix_wire_format_roundtrip (m : List (List (List Nat))) (cellLength : Nat)
    (hcell : ∀ row ∈ m, ∀ cell ∈ row, cell = [] ∨ cell.length = cellLength)
    (hrows : m.length < 2 ^ 32)
    (hlen : ∀ row ∈ m, row.length < 2 ^ 32) :
    encodeMatrix m =
        u32le m.length ++
          (m.map (fun row =>
            u32le row.length ++
              (row.map (fun cell =>
                (if cell.length > 0 then [1] else [0]) ++ cell)).flatten)).flatten ∧
      decodeMatrix (encodeMatrix m) cellLength = some m := by
  constructor
  · have hfun : encodeCell = fun cell => (if cell.length > 0 then [1] else [0]) ++ cell :=
      funext encodeCell_eq
    have hrowfun : encodeRow = fun row =>
        u32le row.length ++
          (List.map (fun cell => (if cell.length > 0 then [1] else [0]) ++ cell) row).flatten := by
      funext row
      rw [encodeRow, hfun]
    rw [encodeMatrix, hrowfun]
  · have hdec := decodeRows_encode cellLength m [] hcell hlen
    rw [List.append_nil] at hdec
    have hu := readU32le_u32le m.length hrows (m.map encodeRow).flatten
    simp [decodeMatrix, encodeMatrix, hu, hdec]

/-- Witness for claim C6: a concrete 2-row nonce-shaped matrix with cell
length 3, one absent cell included, encodes to the stated wire bytes and
round-trips. -/
theorem encodeMatrix_wire_format_roundtrip_witness :
    encodeMatrix [[[5, 6, 7], []], [[9, 10, 11]]] =
        u32le 2 ++
          ([[[5, 6, 7], []], [[9, 10, 11]]].map (fun row =>
            u32le row.length ++
              (row.map (fun cell =>
                (if cell.length > 0 then [1] else [0]) ++ cell)).flatten)).flatten ∧
      decodeMatrix (encodeMatrix [[[5, 6, 7], []], [[9, 10, 11]]]) 3 =
        some [[[5, 6, 7], []], [[9, 10, 11]]] := by
  have h := encodeMatrix_wire_format_roundtrip [[[5, 6, 7], []], [[9, 10, 11]]] 3
    (by decide) (by decide) (by decide)
  simpa using h

/-! ## Settlement event parser

`parseSettlementEvent` and `toVtxoTree` of the REST Ark provider
(`providers/ark.ts`).  The raw wire records carry at most one event
payload; the parser checks the payloads in source order and returns
`none` (after a console warning) for an unknown structure.  The raw
`minRelayFeeRate` is a decimal string; it is modelled by the non-negative
integer it denotes, which `BigInt` parses exactly, and the division by
`BigInt(1000)` is truncating integer division, which on non-negative
operands is `Nat` division. -/

/-- A raw tree node as received from the server: txid, base64 PSBT, and
parent txid (empty string at the roots). -/
structure ProtoNode where
  txid : String
  tx : String
  parentTxid : String
  deriving Repr, DecidableEq

/-- A raw tree: a list of levels, each a list of nodes. -/
abbrev ProtoTree := List (List ProtoNode)

/-- A converted vtxo tree node: the raw fields plus the computed leaf
flag. -/
structure TreeNode where
  txid : String
  tx : String
  parentTxid : String
  leaf : Bool
  deriving Repr, DecidableEq

/-- `toVtxoTree`: collect the non-empty parent txids of all nodes, then
mark as leaf every node whose txid is not the parent of any node. -/
def toVtxoTree (t : ProtoTree) : List (List TreeNode) :=
  let parentTxids := t.flatten.filterMap fun n =>
    if n.parentTxid ≠ "" then some n.parentTxid else none
  t.map fun level => level.map fun n =>
    { txid := n.txid, tx := n.tx, parentTxid := n.parentTxid
      leaf := ¬ parentTxids.contains n.txid }

/-- Raw `roundFailed` payload. -/
structure ProtoRoundFailed where
  id : String
  reason : String
  deriving Repr, DecidableEq

/-- Raw `roundFinalization` payload; `minRelayFeeRate` is the integer
denoted by the decimal string the server sends (sats/kvb). -/
structure ProtoRoundFinalization where
  id : String
  roundTx : String
  vtxoTree : ProtoTree
  connectors : List String
  minRelayFeeRate : Nat
  deriving Repr, DecidableEq

/-- Raw `roundFinalized` payload. -/
structure ProtoRoundFinalized where
  id : String
  roundTxid : String
  deriving Repr, DecidableEq

/-- Raw `roundSigning` payload. -/
structure ProtoRoundSigning where
  id : String
  cosignersPubkeys : List String
  unsignedVtxoTree : ProtoTree
  unsignedRoundTx : String
  deriving Repr, DecidableEq

/-- Raw `roundSigningNoncesGenerated` payload. -/
structure ProtoRoundSigningNoncesGenerated where
  id : String
  treeNonces : String
  deriving Repr, DecidableEq

/-- A raw event record: at most one payload set. -/
structure ProtoEventData where
  roundFailed : Option ProtoRoundFailed := none
  roundFinalization : Option ProtoRoundFinalization := none
  roundFinalized : Option ProtoRoundFinalized := none
  roundSigning : Option ProtoRoundSigning := none
  roundSigningNoncesGenerated : Option ProtoRoundSigningNoncesGenerated := none
  deriving Repr, DecidableEq

/-- A parsed settlement event, as delivered to the settlement engine. -/
inductive ParsedSettlementEvent where
  | finalization (id roundTx : String) (vtxoTree : List (List TreeNode))
      (connectors : List String) (minRelayFeeRate : Nat)
  | finalizedEv (id roundTxid : String)
  | failedEv (id reason : String)
  | signingStart (id : String) (cosignersPublicKeys : List String)
      (unsignedVtxoTree : List (List TreeNode)) (unsignedSettlementTx : String)
  | signingNoncesGenerated (id treeNonces : String)
  deriving Repr, DecidableEq

/-- `parseSettlementEvent`: check the payloads in source order
(finalization, finalized, failed, signing, nonces generated); the
finalization branch divides the raw fee rate by 1000 to convert from
sats/kvb to sats/vB. -/
def parseSettlementEvent (d : ProtoEventData) : Option ParsedSettlementEvent :=
  match d.roundFinalization with
  | some f =>
    some (.finalization f.id f.roundTx (toVtxoTree f.vtxoTree) f.connectors
      (f.minRelayFeeRate / 1000))
  | none =>
    match d.roundFinalized with
    | some f => some (.finalizedEv f.id f.roundTxid)
    | none =>
      match d.roundFailed with
      | some f => some (.failedEv f.id f.reason)
      | none =>
        match d.roundSigning with
        | some s =>
          some (.signingStart s.id s.cosignersPubkeys (toVtxoTree s.unsignedVtxoTree)
            s.unsignedRoundTx)
        | none =>
          match d.roundSigningNoncesGenerated with
          | some s => some (.signingNoncesGenerated s.id s.treeNonces)
          | none => none

/-- Claim C7: for every raw record whose `roundFinalization` payload has a
`minRelayFeeRate` string denoting the integer `n` (sats/kvb), the parsed
`Finalization` event delivered to the settlement engine carries
`minRelayFeeRate = n / 1000` under truncating integer division
(sats/vB). -/
theorem parseSettlementEvent_minRelayFeeRate (d : ProtoEventData)
    (f : ProtoRoundFinalization) (h : d.roundFinalization = some f) :
    parseSettlementEvent d =
      some (.finalization f.id f.roundTx (toVtxoTree f.vtxoTree) f.connectors
        (f.minRelayFeeRate / 1000)) := by
  rw [parseSettlementEvent, h]

/-- Witness for claim C7: a raw finalization record with
`minRelayFeeRate = 1999` sats/kvb parses to an event carrying
`1999 / 1000 = 1` sat/vB — the division truncates. -/
theorem parseSettlementEvent_minRelayFeeRate_witness :
    parseSettlementEvent
        { roundFinalization :=
            some { id := "r1", roundTx := "psbt", vtxoTree := [], connectors := [],
                   minRelayFeeRate := 1999 } } =
      some (.finalization "r1" "psbt" [] [] 1) := by
  have h := parseSettlementEvent_minRelayFeeRate
    { roundFinalization :=
        some { id := "r1", roundTx := "psbt", vtxoTree := [], connectors := [],
               minRelayFeeRate := 1999 } }
    { id := "r1", roundTx := "psbt", vtxoTree := [], connectors := [],
      minRelayFeeRate := 1999 } rfl
  simpa [toVtxoTree] using h

/-! ## Balance aggregation

`Wallet.getBalance` (`src/core/wallet.ts`).  On-chain coins are split by
confirmation status; when an Ark provider is configured, virtual coins
are split by their virtual state; `offchainTotal` sums only the settled
and pending buckets, and the wallet-level total adds the on-chain total
to it. -/

/-- The virtual state of a vtxo. -/
inductive VtxoState where
  | pending
  | settled
  | swept
  | spent
  deriving Repr, DecidableEq

/-- On-chain coin: value and confirmation status (the `status.confirmed`
field of the Esplora coin). -/
structure Coin where
  value : Nat
  statusConfirmed : Bool
  deriving Repr, DecidableEq

/-- Virtual coin: value and virtual status. -/
structure VirtualCoin where
  value : Nat
  virtualState : VtxoState
  deriving Repr, DecidableEq

/-- The `offchain` field of a wallet balance. -/
structure OffchainBalance where
  swept : Nat
  settled : Nat
  pending : Nat
  total : Nat
  deriving Repr, DecidableEq

/-- The `onchain` field of a wallet balance. -/
structure OnchainBalance where
  confirmed : Nat
  unconfirmed : Nat
  total : Nat
  deriving Repr, DecidableEq

/-- A wallet balance as returned by `getBalance`. -/
structure WalletBalance where
  onchain : OnchainBalance
  offchain : OffchainBalance
  total : Nat
  deriving Repr, DecidableEq

/-- The `reduce((sum, coin) => sum + coin.value, 0)` fold. -/
def sumValues (l : List VirtualCoin) : Nat :=
  l.foldl (fun sum c => sum + c.value) 0

/-- `Wallet.getBalance`: on-chain coins split by confirmation, virtual
coins split by state when an Ark provider is configured (all three
off-chain buckets stay 0 otherwise), `offchain.total` summing only the
settled and pending buckets, and the wallet total adding the on-chain
total to `offchain.total`. -/
def getBalance (arkConfigured : Bool) (coins : List Coin) (vtxos : List VirtualCoin) :
    WalletBalance :=
  let onchainConfirmed :=
    (coins.filter fun c => c.statusConfirmed).foldl (fun sum c => sum + c.value) 0
  let onchainUnconfirmed :=
    (coins.filter fun c => ¬ c.statusConfirmed).foldl (fun sum c => sum + c.value) 0
  let onchainTotal := onchainConfirmed + onchainUnconfirmed
  let offchainSettled :=
    if arkConfigured then sumValues (vtxos.filter fun v => v.virtualState = .settled) else 0
  let offchainPending :=
    if arkConfigured then sumValues (vtxos.filter fun v => v.virtualState = .pending) else 0
  let offchainSwept :=
    if arkConfigured then sumValues (vtxos.filter fun v => v.virtualState = .swept) else 0
  let offchainTotal := offchainSettled + offchainPending
  { onchain :=
      { confirmed := onchainConfirmed, unconfirmed := onchainUnconfirmed, total := onchainTotal }
    offchain :=
      { swept := offchainSwept, settled := offchainSettled, pending := offchainPending
        total := offchainTotal }
    total := onchainTotal + offchainTotal }

/-- Claim C9: with an Ark provider configured, `getBalance` computes
`offchain.total` as the sum of the settled and pending buckets only;
swept coins are reported in `offchain.swept` but excluded both from
`offchain.total` and from the wallet-level total, which equals
`onchain.total + settled + pending`; appending a swept coin to the
virtual coin list changes neither total. -/
theorem getBalance_swept_excluded (coins : List Coin) (vtxos : List VirtualCoin) :
    (getBalance true coins vtxos).offchain.total =
        (getBalance true coins vtxos).offchain.settled +
          (getBalance true coins vtxos).offchain.pending ∧
      (getBalance true coins vtxos).offchain.swept =
        sumValues (vtxos.filter fun v => v.virtualState = .swept) ∧
      (getBalance true coins vtxos).total =
        (getBalance true coins vtxos).onchain.total +
          (getBalance true coins vtxos).offchain.settled +
          (getBalance true coins vtxos).offchain.pending ∧
      ∀ v : VirtualCoin, v.virtualState = .swept →
        (getBalance true coins (vtxos ++ [v])).total = (getBalance true coins vtxos).total ∧
          (getBalance true coins (vtxos ++ [v])).offchain.total =
            (getBalance true coins vtxos).offchain.total := by
  refine ⟨rfl, by simp [getBalance], by simp [getBalance, Nat.add_assoc], ?_⟩
  intro v hv
  have hsettled : (vtxos ++ [v]).filter (fun w => w.virtualState = VtxoState.settled) =
      vtxos.filter fun w => w.virtualState = VtxoState.settled := by
    rw [List.filter_append]
    simp [List.filter, hv]
  have hpending : (vtxos ++ [v]).filter (fun w => w.virtualState = VtxoState.pending) =
      vtxos.filter fun w => w.virtualState = VtxoState.pending := by
    rw [List.filter_append]
    simp [List.filter, hv]
  constructor <;> simp [getBalance, hsettled, hpending]

/-- Witness for claim C9: a concrete balance with one confirmed on-chain
coin (70 sats), one settled (10), one pending (20) and one swept (40)
vtxo: the off-chain total is 30, the swept bucket 40, the wallet total
100, and appending another swept coin (500) changes neither total. -/
theorem getBalance_swept_excluded_witness :
    (getBalance true [{ value := 70, statusConfirmed := true }]
          [{ value := 10, virtualState := .settled },
            { value := 20, virtualState := .pending },
            { value := 40, virtualState := .swept }]).offchain.total = 30 ∧
      (getBalance true [{ value := 70, statusConfirmed := true }]
          [{ value := 10, virtualState := .settled },
            { value := 20, virtualState := .pending },
            { value := 40, virtualState := .swept }]).total = 100 ∧
      (getBalance true [{ value := 70, statusConfirmed := true }]
          ([{ value := 10, virtualState := .settled },
            { value := 20, virtualState := .pending },
            { value := 40, virtualState := .swept }] ++
              [{ value := 500, virtualState := .swept }])).total = 100 := by
  have h := getBalance_swept_excluded [{ value := 70, statusConfirmed := true }]
    [{ value := 10, virtualState := .settled },
      { value := 20, virtualState := .pending },
      { value := 40, virtualState := .swept }]
  refine ⟨by decide, by decide, ?_⟩
  rw [(h.2.2.2 { value := 500, virtualState := .swept } rfl).1]
  decide

/-! ## Bitcoin send routing

`Wallet.sendBitcoin` and `Wallet.isOffchainSuitable`
(`src/core/wallet.ts`).  The amount checks reject non-positive amounts
and amounts strictly below the 546-sat dust limit; off-chain routing is
chosen exactly when an Ark provider is configured and the amount is
strictly greater than the dust limit. -/

/-- `Wallet.DUST_AMOUNT`: the Bitcoin dust limit, 546 satoshis. -/
def dustAmount : Int := 546

/-- `Wallet.isOffchainSuitable`: the amount is strictly greater than the
dust limit. -/
def isOffchainSuitable (amount : Int) : Bool := amount > dustAmount

/-- How a `sendBitcoin` call resolves. -/
inductive SendRoute where
  | errorNonPositive
  | errorBelowDust
  | offchain
  | onchain
  deriving Repr, DecidableEq

/-- The guard-and-routing prefix of `Wallet.sendBitcoin`: reject
non-positive amounts, then amounts below the dust limit; send off-chain
when an Ark provider is configured and the amount is suitable; otherwise
send on-chain. -/
def sendBitcoinRoute (arkConfigured : Bool) (amount : Int) : SendRoute :=
  if amount ≤ 0 then .errorNonPositive
  else if amount < dustAmount then .errorBelowDust
  else if arkConfigured && isOffchainSuitable amount then .offchain
  else .onchain

/-- Claim C10: a `sendBitcoin` call for exactly 546 sats passes both amount
checks (only amounts strictly below 546 are rejected as below dust) but
is never routed off-chain — off-chain requires an amount strictly
greater than 546 — so it is sent on-chain even when an Ark provider is
configured. -/
theorem sendBitcoin_dust_boundary :
    (∀ arkConfigured, sendBitcoinRoute arkConfigured 546 = .onchain) ∧
      (∀ arkConfigured amount,
        sendBitcoinRoute arkConfigured amount = .errorBelowDust ↔ 0 < amount ∧ amount < 546) ∧
      ∀ amount, sendBitcoinRoute true amount = .offchain ↔ 546 < amount := by
  refine ⟨fun ark => by cases ark <;> decide, fun ark amount => ?_, fun amount => ?_⟩
  · unfold sendBitcoinRoute
    split
    · constructor
      · intro hcontra
        exact absurd hcontra (by decide)
      · intro hpos
        omega
    · split
      · rw [dustAmount] at *
        constructor
        · intro _
          omega
        · intro _
          rfl
      · constructor
        · intro hcontra
          split at hcontra <;> exact absurd hcontra (by decide)
        · intro hpos
          rw [dustAmount] at *
          omega
  · unfold sendBitcoinRoute isOffchainSuitable
    rw [dustAmount]
    split
    · constructor
      · intro hcontra
        exact absurd hcontra (by decide)
      · intro h
        omega
    · split
      · constructor
        · intro hcontra
          exact absurd hcontra (by decide)
        · intro h
          omega
      · split
        · rename_i h1 h2 h3
          simp only [Bool.true_and, decide_eq_true_eq] at h3
          constructor
          · intro _
            exact h3
          · intro _
            rfl
        · rename_i h1 h2 h3
          simp only [Bool.true_and, decide_eq_true_eq] at h3
          constructor
          · intro hcontra
            exact absurd hcontra (by decide)
          · intro h
            exact absurd h h3

/-! ## VHTLC construction

The `VHTLC.Script` constructor itself is not among the provided sources;
only its callers are: the integration test (`test/integration.test.ts`,
the `"should claim a VHTLC"` case) and the example
(`examples/vhtlc.js`).  Both construct VHTLC scripts whose
`unilateralClaimDelay` is greater than or equal to their
`unilateralRefundDelay` — the test uses claim = 100 blocks,
refund = 50 blocks, refund-without-receiver = 50 blocks; the example
uses claim = 10 blocks, refund = 2 blocks, refund-without-receiver = 3
blocks — and both expect construction (and the subsequent claim flow) to
succeed, so the constructor cannot reject that ordering. -/

/-- The unit of a relative (CSV) delay. -/
inductive TimeUnit where
  | blocks
  | seconds
  deriving Repr, DecidableEq

/-- A relative delay: unit and value (a JavaScript `bigint`). -/
structure RelativeDelay where
  type : TimeUnit
  value : Int
  deriving Repr, DecidableEq

/-- The VHTLC parameter set (spec section 3): a 20-byte HASH160 preimage
hash, three 32-byte x-only public keys, an absolute refund locktime, and
three relative delays. -/
structure VHTLCOptions where
  preimageHash : List Nat
  sender : List Nat
  receiver : List Nat
  server : List Nat
  refundLocktime : Int
  unilateralClaimDelay : RelativeDelay
  unilateralRefundDelay : RelativeDelay
  unilateralRefundWithoutReceiverDelay : RelativeDelay
  deriving Repr, DecidableEq

/-- Modelled from the spec: the parameter validation the `VHTLC.Script`
constructor performs, reconstructed from the data model of spec
section 3 (20-byte preimage hash, 32-byte x-only keys, positive absolute
locktime, positive relative delays), the constructor implementation
being absent from the provided sources.  The delay-ordering rejection
that spec section 8 additionally asserts is deliberately not modelled:
the repository integration test and example both construct VHTLC
scripts with `unilateralClaimDelay ≥ unilateralRefundDelay` and expect
success (see the section header above), so the constructor performs no
such check. -/
def vhtlcValidate (o : VHTLCOptions) : Except String Unit :=
  if o.preimageHash.length ≠ 20 then .error "preimage hash must be 20 bytes"
  else if o.sender.length ≠ 32 then .error "sender must be a 32-byte x-only public key"
  else if o.receiver.length ≠ 32 then .error "receiver must be a 32-byte x-only public key"
  else if o.server.length ≠ 32 then .error "server must be a 32-byte x-only public key"
  else if o.refundLocktime ≤ 0 then .error "refund locktime must be greater than 0"
  else if o.unilateralClaimDelay.value ≤ 0 then .error "delay value must be greater than 0"
  else if o.unilateralRefundDelay.value ≤ 0 then .error "delay value must be greater than 0"
  else if o.unilateralRefundWithoutReceiverDelay.value ≤ 0 then
    .error "delay value must be greater than 0"
  else .ok ()

/-- The delay-ordering invariant exactly as the spec states it:
`unilateralClaimDelay < unilateralRefundDelay <
unilateralRefundWithoutReceiverDelay`. -/
def vhtlcDelayOrderingSpec (o : VHTLCOptions) : Prop :=
  o.unilateralClaimDelay.value < o.unilateralRefundDelay.value ∧
    o.unilateralRefundDelay.value < o.unilateralRefundWithoutReceiverDelay.value

instance (o : VHTLCOptions) : Decidable (vhtlcDelayOrderingSpec o) := by
  unfold vhtlcDelayOrderingSpec
  infer_instance

/-- The VHTLC parameter set of the repository integration test
(`"should claim a VHTLC"`): claim delay 100 blocks, refund delay 50
blocks, refund-without-receiver delay 50 blocks, refund locktime 1000.
The preimage hash of the test is a HASH160 digest — 20 bytes; the keys
are x-only — 32 bytes; only the lengths matter here. -/
def integrationTestVhtlcOptions : VHTLCOptions :=
  { preimageHash := List.replicate 20 0xab
    sender := List.replicate 32 0x01
    receiver := List.replicate 32 0x02
    server := List.replicate 32 0x03
    refundLocktime := 1000
    unilateralClaimDelay := { type := .blocks, value := 100 }
    unilateralRefundDelay := { type := .blocks, value := 50 }
    unilateralRefundWithoutReceiverDelay := { type := .blocks, value := 50 } }

/-- Claim C2, counterexample: the VHTLC parameter set of the repository
integration test has `unilateralClaimDelay = 100 ≥ 50 =
unilateralRefundDelay`, yet its construction succeeds — so constructing
with `unilateralClaimDelay ≥ unilateralRefundDelay` does not fail, and a
successfully constructed VHTLC need not satisfy the delay-ordering
invariant. -/
theorem vhtlc_delay_ordering_counterexample :
    vhtlcValidate integrationTestVhtlcOptions = Except.ok () ∧
      ¬ vhtlcDelayOrderingSpec integrationTestVhtlcOptions := by
  constructor
  · rfl
  · decide

/-- Claim C2, amended: constructing a VHTLC performs no delay-ordering
check — construction succeeds exactly when the parameters are
well-formed (20-byte preimage hash, 32-byte keys, positive locktime and
delay values), independently of how the three delays compare; in
particular a parameter set with `unilateralClaimDelay ≥
unilateralRefundDelay` constructs successfully.  The ordering invariant
of the spec is advisory, not enforced. -/
theorem vhtlcValidate_no_ordering_check (o : VHTLCOptions) :
    vhtlcValidate o = Except.ok () ↔
      o.preimageHash.length = 20 ∧ o.sender.length = 32 ∧ o.receiver.length = 32 ∧
        o.server.length = 32 ∧ 0 < o.refundLocktime ∧
        0 < o.unilateralClaimDelay.value ∧ 0 < o.unilateralRefundDelay.value ∧
        0 < o.unilateralRefundWithoutReceiverDelay.value := by
  unfold vhtlcValidate
  split_ifs with h1 h2 h3 h4 h5 h6 h7 h8
  · exact iff_of_false (by simp) (by omega)
  · exact iff_of_false (by simp) (by omega)
  · exact iff_of_false (by simp) (by omega)
  · exact iff_of_false (by simp) (by omega)
  · exact iff_of_false (by simp) (by omega)
  · exact iff_of_false (by simp) (by omega)
  · exact iff_of_false (by simp) (by omega)
  · exact iff_of_false (by simp) (by omega)
  · exact iff_of_true rfl (by omega)

end ArkSdk
